import Mathlib

/-!
Verification of the vhbbtools data-access core: a shallow embedding of the
dataset chunk-packing iterator, the selection algebra, the eventlist narrowing
logic, the context-manager lifecycle of the event handles, the process group
constructor, and the parallel staging helpers, together with theorems settling
the specification claims about them.
-/

namespace Vhbbtools

/-! ## Data model: file records and chunk packing (core/dataset.py, conf/dataset.py) -/

/-- A DBS file record as consumed by `Dataset.__iter__`: the fields
`logical_file_name`, `file_size` (bytes) and `is_file_valid` are the ones the
iterator reads (src/vhbbtools/core/dataset.py lines 116-129). -/
structure FileRecord where
  logical_file_name : String
  file_size : ℕ
  is_file_valid : Bool
deriving DecidableEq, Repr

/-- Line 122 of core/dataset.py: `file_size_in_MB = record.file_size / 1000000`
under `from __future__ import division`, hence exact rational division. -/
def file_size_in_MB (r : FileRecord) : ℚ :=
  (r.file_size : ℚ) / 1000000

/-- Line 114/121 of core/dataset.py: the url template
`root://redirector//logical_file_name` applied to a record. -/
def file_url (redirector : String) (r : FileRecord) : String :=
  "root://" ++ redirector ++ "//" ++ r.logical_file_name

/-- Lines 115-118 of core/dataset.py: when `valid` is set, only records with
`is_file_valid` are iterated, otherwise all records. -/
def eligibleRecords (valid : Bool) (records : List FileRecord) : List FileRecord :=
  if valid then records.filter (fun r => r.is_file_valid) else records

/-- The chunk-packing loop of `Dataset.__iter__`, core/dataset.py lines 119-130
(identically conf/dataset.py lines 110-121): the running chunk of urls and the
running size are threaded through; when adding the next record would push the
cumulative size over `chunk_size` the running chunk is yielded (with no check
that it is non-empty) and restarted from this record, otherwise the record is
appended; after the loop the final chunk is yielded unconditionally. -/
def datasetIterAux (redirector : String) (chunk_size : ℚ)
    (chunk : List String) (current_size : ℚ) :
    List FileRecord → List (List String)
  | [] => [chunk]
  | r :: rest =>
    if current_size + file_size_in_MB r > chunk_size then
      datasetIterAux redirector chunk_size [file_url redirector r] (file_size_in_MB r) rest
        |> (chunk :: ·)
    else
      datasetIterAux redirector chunk_size (chunk ++ [file_url redirector r])
        (current_size + file_size_in_MB r) rest

/-- The chunks (lists of file urls) yielded by `Dataset.__iter__` when
`files is None`: the loop of lines 119-130 started with an empty chunk and
size 0 over the eligible records. -/
def datasetChunks (redirector : String) (chunk_size : ℚ) (valid : Bool)
    (records : List FileRecord) : List (List String) :=
  datasetIterAux redirector chunk_size [] 0 (eligibleRecords valid records)

/-- The same packing loop with the records themselves accumulated in place of
their urls, so that cumulative chunk sizes remain expressible; it mirrors
`datasetIterAux` branch for branch and is related to it by mapping
`file_url` over every chunk. -/
def packRecordsAux (chunk_size : ℚ) (chunk : List FileRecord) (current_size : ℚ) :
    List FileRecord → List (List FileRecord)
  | [] => [chunk]
  | r :: rest =>
    if current_size + file_size_in_MB r > chunk_size then
      packRecordsAux chunk_size [r] (file_size_in_MB r) rest |> (chunk :: ·)
    else
      packRecordsAux chunk_size (chunk ++ [r]) (current_size + file_size_in_MB r) rest

/-- Record-level packing started from the empty chunk, as in lines 119-130. -/
def packRecords (chunk_size : ℚ) (records : List FileRecord) : List (List FileRecord) :=
  packRecordsAux chunk_size [] 0 records

/-- The cumulative size in MB of a chunk of records. -/
def chunkTotalMB (c : List FileRecord) : ℚ :=
  (c.map file_size_in_MB).sum

/-! ## Dataset iteration including the `files` override (core/dataset.py lines 108-134) -/

/-- What one step of `Dataset.__iter__` yields: either an `Events` handle built
from a chunk of urls together with the dataset's selection (line 124/130), or a
verbatim entry of the overridden `files` attribute (lines 133-134). -/
inductive YieldItem where
  | events (filenames : List String) (selection : String)
  | file (path : String)
deriving DecidableEq, Repr

/-- The instance attributes of a `Dataset` that `__iter__` consults. -/
structure DatasetConfig where
  files : Option (List String)
  selection : String
  chunk_size : ℚ
  redirector : Option String
  valid : Bool
deriving DecidableEq, Repr

/-- The `DatasetError` raised at line 112 when remote files must be derived and
no redirector url is available. -/
inductive DatasetError where
  | redirectorRequired
deriving DecidableEq, Repr

/-- `Dataset.__iter__`, core/dataset.py lines 108-134: when `files is None` the
redirector is checked and the packed chunks are yielded as `Events` handles
carrying the dataset's selection; otherwise each element of `files` is yielded
verbatim and the packing path is never entered. -/
def datasetIter (cfg : DatasetConfig) (records : List FileRecord) :
    Except DatasetError (List YieldItem) :=
  match cfg.files with
  | none =>
    match cfg.redirector with
    | none => Except.error DatasetError.redirectorRequired
    | some host =>
      Except.ok ((datasetChunks host cfg.chunk_size cfg.valid records).map
        (fun c => YieldItem.events c cfg.selection))
  | some fs => Except.ok (fs.map YieldItem.file)

/-! ## Selection algebra (core/collections.py lines 50-56) -/

/-- The selection composition performed by `Process.select`, core/collections.py
lines 52-55: when the dataset's current selection is falsy (Python `None` or the
empty string, both rendered here as `""`) the new selection is taken as is, and
otherwise the two are glued as `(old)&&(new)`. -/
def composeSelection (a b : String) : String :=
  if a = "" then b else "(" ++ a ++ ")&&(" ++ b ++ ")"

/-! ## Eventlist selection (core/ntuple.py lines 152-166, core/events.py lines 209-224) -/

/-- One call of `Ntuple.select` / `Events.select` acting on the stored
eventlist. The eventlist computed for the expression by `TTree.Draw` is
abstracted as the oracle `draw` (a null result, Python-falsy, for a failed
draw). Following lines 161-166 of core/ntuple.py: if the new eventlist is null
nothing happens; otherwise, if an eventlist is already stored the new one is
intersected with it (`TEventList::Intersect` keeps exactly the entries also in
the other list) and stored. -/
def selectStep (draw : String → Option (Finset ℕ)) (selection : String)
    (eventlist : Option (Finset ℕ)) : Option (Finset ℕ) :=
  match draw selection with
  | none => eventlist
  | some eventlist_new =>
    match eventlist with
    | none => some eventlist_new
    | some old => some (eventlist_new ∩ old)

/-- Modelled from the spec: the `SelectionError` named by the specification's
error taxonomy. No class of this name exists anywhere in the source tree; the
type records the exception channel the spec claims for `select`. -/
inductive SelectionError where
  | mk (msg : String)
deriving DecidableEq, Repr

/-- The full `select` call viewed through the exception channel the spec claims
for it: the method body (core/ntuple.py lines 152-166) contains no raise
statement, so every path returns normally with the updated state. -/
def ntupleSelect (draw : String → Option (Finset ℕ)) (selection : String)
    (eventlist : Option (Finset ℕ)) : Except SelectionError (Option (Finset ℕ)) :=
  Except.ok (selectStep draw selection eventlist)

/-- `count()` semantics (core/ntuple.py lines 114-122): with a null eventlist
the draw scans all `total` entries, otherwise exactly the stored entries. -/
def countEvents (total : ℕ) (eventlist : Option (Finset ℕ)) : ℕ :=
  match eventlist with
  | none => total
  | some s => s.card

/-! ## Scoped acquisition and release (core/events.py lines 61-77, core/ntuple.py lines 45-51) -/

/-- The per-instance state of an open `Events` handle that its exit path is
documented to release: the downloaded-files directory, the aggregated count
histogram attributes, the stored eventlist and the chained files. -/
structure EventsState where
  download : Bool
  tmpdir : Option String
  histograms : List String
  eventlist : Option (Finset ℕ)
  chainFiles : List String
deriving DecidableEq

/-- `Events._cleanup`, core/events.py lines 70-77: drops the temporary
directory when files were downloaded and deletes the count histogram
attributes. -/
def eventsCleanup (st : EventsState) : EventsState :=
  { st with
    tmpdir := if st.download then none else st.tmpdir
    histograms := [] }

/-- The body of `Events.__exit__`, core/events.py lines 62-64: cleanup, then
`self.eventlist = 0`, then `self.Reset()` which empties the chain. -/
def eventsExitBody (st : EventsState) : EventsState :=
  let st1 := eventsCleanup st
  let st2 := { st1 with eventlist := none }
  { st2 with chainFiles := [] }

/-- The Python exceptions arising in the modelled fragments. -/
inductive PyError where
  | nameError (name : String)
  | typeError (msg : String)
  | duplicateDatasetError (msg : String)
deriving DecidableEq, Repr

/-- A placeholder Python value, enough to model the three arguments the
with-statement protocol passes to an exit method. -/
inductive PyVal where
  | pyNone
deriving DecidableEq, Repr

/-- Calling `Events.__exit__` with positional arguments besides `self`: the
method is declared as `def __exit__(self):` (core/events.py line 61), so any
call supplying further arguments fails with `TypeError` before the body runs. -/
def eventsExitCall (args : List PyVal) (st : EventsState) :
    Except PyError EventsState :=
  if args.length = 0 then Except.ok (eventsExitBody st)
  else Except.error (PyError.typeError "__exit__() takes exactly 1 argument (4 given)")

/-- The with-statement around an `Events` handle: after the body finishes, the
protocol invokes `__exit__(exc_type, exc_value, traceback)` with three
arguments; if that call itself raises, the exception propagates and the state
the body left behind is kept as is. -/
def withEvents {α : Type} (st : EventsState) (body : EventsState → EventsState × α) :
    Except PyError α × EventsState :=
  let res := body st
  match eventsExitCall [PyVal.pyNone, PyVal.pyNone, PyVal.pyNone] res.1 with
  | Except.ok stExit => (Except.ok res.2, stExit)
  | Except.error e => (Except.error e, res.1)

/-- The per-instance state of an open `Ntuple` handle. -/
structure NtupleState where
  histograms : List String
  eventlist : Option (Finset ℕ)
  chainFiles : List String
deriving DecidableEq

/-- `Ntuple._histogram_teardown`, core/ntuple.py lines 87-93: deletes every
histogram attribute. -/
def histogramTeardown (st : NtupleState) : NtupleState :=
  { st with histograms := [] }

/-- `Ntuple.__exit__`, core/ntuple.py lines 45-51: teardown of the histogram
attributes, reset of the eventlist to null when one is set, and `Reset()` of
the chained files. Its signature accepts the protocol's three arguments. -/
def ntupleExit (st : NtupleState) : NtupleState :=
  let st1 := histogramTeardown st
  let st2 := if st1.eventlist.isSome then { st1 with eventlist := none } else st1
  { st2 with chainFiles := [] }

/-- The with-statement around an `Ntuple` handle: whether the body completes
normally or raises (its outcome is `r`), the exit method runs on the state the
body left behind. -/
def withNtuple {E α : Type} (st : NtupleState)
    (body : NtupleState → NtupleState × Except E α) :
    Except E α × NtupleState :=
  let res := body st
  (res.2, ntupleExit res.1)

/-! ## The failing eventlist path of `Events.select` (core/events.py lines 79-86, 209-224) -/

/-- Calling `TDirectory.GetName` with `argCount` positional arguments: the
ROOT accessor takes none besides `self` and returns the directory's name, so
any call passing arguments fails with `TypeError` before returning. -/
def tdirectoryGetNameArity (argCount : ℕ) (dirName : String) : Except PyError String :=
  if argCount = 0 then Except.ok dirName
  else Except.error (PyError.typeError "GetName() takes no arguments (1 given)")

/-- `Events._create_eventlist`, core/events.py lines 79-86: the draw runs,
then line 85 fetches the result with `eventlist = d.GetName(name)` — one
argument passed to `TDirectory.GetName`, which takes none — so the call raises
`TypeError` on every selection, well-formed or malformed, and the return at
line 86 is unreachable. The draw is abstracted by the same oracle as in
`selectStep`. -/
def eventsCreateEventlist (draw : String → Option (Finset ℕ)) (selection : String) :
    Except PyError (Option (Finset ℕ)) :=
  let _drawResult := draw selection
  match tdirectoryGetNameArity 1 "tmprootdir" with
  | Except.error e => Except.error e
  | Except.ok _ => Except.ok (draw selection)

/-- `Events.select`, core/events.py lines 209-224: `_create_eventlist` is
called first (line 220); when it raises, the exception propagates out of
`select` before the guard at line 221 is reached, so the stored eventlist is
never touched. When it returns (unreachable in the source, see
`eventsCreateEventlist`) the update logic of lines 221-224 is that of
`selectStep`. The pair returned is the call's outcome together with the
eventlist after the call. -/
def eventsSelect (draw : String → Option (Finset ℕ)) (selection : String)
    (eventlist : Option (Finset ℕ)) :
    Except PyError (Option (Finset ℕ)) × Option (Finset ℕ) :=
  match eventsCreateEventlist draw selection with
  | Except.error e => (Except.error e, eventlist)
  | Except.ok _ =>
    (Except.ok (selectStep draw selection eventlist), selectStep draw selection eventlist)

/-! ## Process groups (core/collections.py lines 23-56) -/

/-- A dataset as seen by `Process`: equality and hashing are by `name`
(core/dataset.py lines 102-106), and `select` reads and writes `selection`. -/
structure ProcDataset where
  name : String
  selection : String
deriving DecidableEq, Repr

/-- The names visible in the scope of `Process.__init__` (its locals `self` and
`datasets` plus the module globals of core/collections.py). The name `dataset`
is not among them. -/
def processInitScope : List String :=
  ["self", "datasets", "copy", "itertools", "Dataset", "DuplicateDatasetError", "Process"]

/-- Python name resolution: an unbound name raises `NameError`. -/
def resolveName (scope : List String) (n : String) : Except PyError Unit :=
  if n ∈ scope then Except.ok () else Except.error (PyError.nameError n)

/-- The cardinality of `set(datasets)`: datasets hash and compare by name, so
it is the number of distinct names. -/
def distinctNameCount (datasets : List ProcDataset) : ℕ :=
  ((datasets.map (fun d => d.name)).dedup).length

/-- `Process.__init__`, core/collections.py lines 23-28. Line 24 reads
`any(not isinstance(dataset, Dataset) for dataset in dataset)`: the generator
expression's outer iterable is the name `dataset`, which is evaluated eagerly
in the enclosing scope, where it is unbound; only afterwards would line 26
compare `len(datasets)` with `len(set(datasets))` and raise
`DuplicateDatasetError` on duplicate names. -/
def processInit (datasets : List ProcDataset) : Except PyError (List ProcDataset) :=
  match resolveName processInitScope "dataset" with
  | Except.error e => Except.error e
  | Except.ok _ =>
    if distinctNameCount datasets ≠ datasets.length then
      Except.error (PyError.duplicateDatasetError "The datasets must be unique.")
    else
      Except.ok datasets

/-- `Process.__iter__`, core/collections.py lines 30-34: the chunk sequence of
each member dataset is exhausted fully, members in stored order. -/
def processIter {α : Type} (memberChunks : List (List α)) : List α :=
  memberChunks.flatten

/-- `Process.select`, core/collections.py lines 36-56, over an explicit store
of dataset objects so that aliasing is visible: `copy.deepcopy` allocates fresh
cells for the member datasets, the loop mutates only those fresh cells
(composing the selections as in lines 52-55), and `Process(*datasets)` is then
called on them — which raises inside `Process.__init__`. The function returns
the store after the call and the outcome. -/
def processSelect (store : List ProcDataset) (members : List ℕ) (selection : String) :
    List ProcDataset × Except PyError (List ℕ) :=
  let copies := members.map (fun i => store.getD i ⟨"", ""⟩)
  let mutated := copies.map (fun d => { d with selection := composeSelection d.selection selection })
  let newStore := store ++ mutated
  let newMembers := (List.range copies.length).map (fun k => k + store.length)
  match processInit mutated with
  | Except.error e => (newStore, Except.error e)
  | Except.ok _ => (newStore, Except.ok newMembers)

/-! ## Remote staging (core/xrdcp.py lines 11-69, core/utils.py lines 44-64) -/

/-- The `XRDCopyError` of core/xrdcp.py line 7, raised by `xrdcp` when the
underlying command exits non-zero; the message is abstracted by the source
being copied. -/
inductive XRDCopyError where
  | mk (msg : String)
deriving DecidableEq, Repr

/-- The command line built by `xrdcp`, core/xrdcp.py lines 32-35. -/
def xrdcpCommand (src dst : String) (force : Bool) : List String :=
  ["xrdcp", "--path", "--posc", "--silent"]
    ++ (if force then ["--force"] else []) ++ [src, dst]

/-- The `xrdcp` wrapper, core/xrdcp.py lines 11-39: `subprocess.check_call`
raises exactly when the command's exit status (given by the oracle `run`) is
non-zero, and that is reraised as `XRDCopyError`. -/
def xrdcp (run : List String → Int) (src dst : String) (force : Bool) :
    Except XRDCopyError Unit :=
  if run (xrdcpCommand src dst force) = 0 then Except.ok ()
  else Except.error (XRDCopyError.mk src)

/-- The outcomes of the submitted copy jobs, one per source; every job runs to
completion in the pool regardless of the others' outcomes. -/
def jobResults (run : List String → Int) (srcs : List String) (dst : String)
    (force : Bool) : List (Except XRDCopyError Unit) :=
  srcs.map (fun src => xrdcp run src dst force)

/-- The first failure encountered when collecting results in completion order
(`order`, a permutation of the job indices): `concurrent.futures.as_completed`
followed by `job.result()`, core/xrdcp.py lines 68-69. -/
def firstFailure (jobs : List (Except XRDCopyError Unit)) (order : List ℕ) :
    Option XRDCopyError :=
  order.findSome? (fun i =>
    match jobs.getD i (Except.ok ()) with
    | Except.error e => some e
    | Except.ok _ => none)

/-- The `multixrdcp` of core/xrdcp.py lines 42-69: all jobs are submitted and
run; collecting the results in completion order reraises the first failure
(after the executor's shutdown has waited for the rest), and the batch succeeds
when no job failed. -/
def multixrdcp (run : List String → Int) (order : List ℕ) (srcs : List String)
    (dst : String) (force : Bool) : Except XRDCopyError Unit :=
  match firstFailure (jobResults run srcs dst force) order with
  | some e => Except.error e
  | none => Except.ok ()

/-- The `multixrdcp` of core/utils.py lines 44-64: the jobs are submitted and
waited for with `futures.wait(fs)`, but no result is ever collected, so a
job's exception is never reraised and the call always returns normally. -/
def multixrdcpUtils (run : List String → Int) (srcs : List String)
    (dst : String) (force : Bool) : Except XRDCopyError Unit :=
  let _jobs := jobResults run srcs dst force
  Except.ok ()

end Vhbbtools
namespace Vhbbtools

/-- The record-level packing loop mirrors the url-level loop of
`Dataset.__iter__`: mapping `file_url` over every chunk it produces gives the
chunks of urls, for any running chunk and size. -/
theorem datasetIterAux_eq_map_packRecordsAux (host : String) (bound : ℚ) :
    ∀ (recs : List FileRecord) (chunk : List FileRecord) (cur : ℚ),
      datasetIterAux host bound (chunk.map (file_url host)) cur recs =
        (packRecordsAux bound chunk cur recs).map (List.map (file_url host)) := by
  intro recs
  induction recs with
  | nil => intro chunk cur; simp [datasetIterAux, packRecordsAux]
  | cons r rest ih =>
    intro chunk cur
    simp only [datasetIterAux, packRecordsAux]
    by_cases h : cur + file_size_in_MB r > bound
    · simp only [if_pos h, List.map_cons]
      have h1 : [file_url host r] = [r].map (file_url host) := rfl
      rw [h1, ih]
    · simp only [if_neg h]
      have h2 : chunk.map (file_url host) ++ [file_url host r] =
          (chunk ++ [r]).map (file_url host) := by simp
      rw [h2, ih]

/-- Cumulative size of an appended chunk. -/
theorem chunkTotalMB_append (c : List FileRecord) (r : FileRecord) :
    chunkTotalMB (c ++ [r]) = chunkTotalMB c + file_size_in_MB r := by
  simp [chunkTotalMB]

/-- Boundary invariant of the packing loop: provided the running size equals
the running chunk's cumulative size and the running chunk is within the bound
or a lone oversized file, every emitted chunk is within the bound or a lone
oversized file. -/
theorem packRecordsAux_bound (bound : ℚ) :
    ∀ (recs : List FileRecord) (chunk : List FileRecord) (cur : ℚ),
      cur = chunkTotalMB chunk →
      (chunkTotalMB chunk ≤ bound ∨ ∃ r, chunk = [r] ∧ bound < file_size_in_MB r) →
      ∀ c ∈ packRecordsAux bound chunk cur recs,
        chunkTotalMB c ≤ bound ∨ ∃ r, c = [r] ∧ bound < file_size_in_MB r := by
  intro recs
  induction recs with
  | nil =>
    intro chunk cur hcur hinv c hc
    simp only [packRecordsAux, List.mem_singleton] at hc
    exact hc ▸ hinv
  | cons r rest ih =>
    intro chunk cur hcur hinv c hc
    simp only [packRecordsAux] at hc
    by_cases h : cur + file_size_in_MB r > bound
    · rw [if_pos h] at hc
      rcases List.mem_cons.mp hc with hc1 | hc2
      · exact hc1 ▸ hinv
      · refine ih [r] (file_size_in_MB r) (by simp [chunkTotalMB]) ?_ c hc2
        by_cases hr : file_size_in_MB r ≤ bound
        · exact Or.inl (by simpa [chunkTotalMB] using hr)
        · exact Or.inr ⟨r, rfl, lt_of_not_le hr⟩
    · rw [if_neg h] at hc
      refine ih (chunk ++ [r]) (cur + file_size_in_MB r)
        (by rw [chunkTotalMB_append, hcur]) ?_ c hc
      left
      rw [chunkTotalMB_append, ← hcur]
      exact le_of_not_lt h

/-- Claim C1 counterexample: a single valid 3 MB file packed with bound 2 MB.
The loop emits the running chunk while it is still empty (no non-emptiness
guard exists at core/dataset.py line 123), so the yielded chunks are an empty
chunk followed by the one-file chunk — refuting the claim that a chunk is
emitted only when non-empty and that no emitted chunk is empty. -/
theorem packing_empty_chunk_cex :
    datasetChunks "xrd.host" 2 true [⟨"/store/f1.root", 3000000, true⟩] =
      [[], ["root://xrd.host///store/f1.root"]] ∧
    ([] : List String) ∈ datasetChunks "xrd.host" 2 true [⟨"/store/f1.root", 3000000, true⟩] := by
  have h : datasetChunks "xrd.host" 2 true [⟨"/store/f1.root", 3000000, true⟩] =
      [[], ["root://xrd.host///store/f1.root"]] := by
    simp only [datasetChunks, eligibleRecords, datasetIterAux, file_size_in_MB, file_url,
      List.filter]
    norm_num
    rfl
  exact ⟨h, by rw [h]; exact List.mem_cons_self _ _⟩

/-- Claim C1 (amended): for every positive bound, the chunks of urls are the
record-level packing mapped through `file_url`, and every packed chunk has
cumulative size within the bound except a one-file chunk holding a single
oversized file; the loop emits the running chunk whenever the next record
would push it over the bound even if it is empty, and emits the final chunk
unconditionally. -/
theorem packing_boundary_amended (host : String) (bound : ℚ) (valid : Bool)
    (records : List FileRecord) (hb : 0 < bound) :
    datasetChunks host bound valid records =
      (packRecords bound (eligibleRecords valid records)).map (List.map (file_url host)) ∧
    ∀ c ∈ packRecords bound (eligibleRecords valid records),
      chunkTotalMB c ≤ bound ∨ ∃ r, c = [r] ∧ bound < file_size_in_MB r := by
  constructor
  · have h := datasetIterAux_eq_map_packRecordsAux host bound
      (eligibleRecords valid records) [] 0
    simpa [datasetChunks, packRecords] using h
  · exact packRecordsAux_bound bound (eligibleRecords valid records) [] 0
      (by simp [chunkTotalMB]) (Or.inl (by simp [chunkTotalMB]; exact le_of_lt hb))

/-- Witness for the amended claim C1 at a concrete input. -/
theorem packing_boundary_amended_witness :
    (0 : ℚ) < 2000 ∧
    (datasetChunks "cms-xrd-global.cern.ch" 2000 true [] =
      (packRecords 2000 (eligibleRecords true [])).map
        (List.map (file_url "cms-xrd-global.cern.ch")) ∧
    ∀ c ∈ packRecords 2000 (eligibleRecords true []),
      chunkTotalMB c ≤ 2000 ∨ ∃ r, c = [r] ∧ 2000 < file_size_in_MB r) :=
  ⟨by norm_num, packing_boundary_amended "cms-xrd-global.cern.ch" 2000 true [] (by norm_num)⟩

/-- Concatenating the chunks produced from any running chunk recovers that
chunk followed by the urls of the remaining records, in order. -/
theorem datasetIterAux_flatten (host : String) (bound : ℚ) :
    ∀ (recs : List FileRecord) (chunk : List String) (cur : ℚ),
      (datasetIterAux host bound chunk cur recs).flatten =
        chunk ++ recs.map (file_url host) := by
  intro recs
  induction recs with
  | nil => intro chunk cur; simp [datasetIterAux]
  | cons r rest ih =>
    intro chunk cur
    simp only [datasetIterAux, List.map_cons]
    by_cases h : cur + file_size_in_MB r > bound
    · simp only [if_pos h, List.flatten_cons, ih]
      rfl
    · simp only [if_neg h, ih]
      simp

/-- Claim C2: the concatenation of the chunks yielded by `Dataset.__iter__`
is exactly the url list of the eligible records, in catalog order — no file
dropped, duplicated, reordered, or split, for every bound (in particular every
positive one) and every record list. -/
theorem packing_preserves_files (host : String) (bound : ℚ) (valid : Bool)
    (records : List FileRecord) :
    (datasetChunks host bound valid records).flatten =
      (eligibleRecords valid records).map (file_url host) := by
  simpa [datasetChunks] using
    datasetIterAux_flatten host bound (eligibleRecords valid records) [] 0

end Vhbbtools
namespace Vhbbtools

/-- One `select` call preserves the containment of the eventlist in the entry
range and never increases `count()`. -/
theorem selectStep_count_invariant (total : ℕ) (draw : String → Option (Finset ℕ))
    (sel : String) (st : Option (Finset ℕ))
    (hdraw : ∀ s nl, draw s = some nl → nl ⊆ Finset.range total)
    (hst : ∀ s0, st = some s0 → s0 ⊆ Finset.range total) :
    countEvents total (selectStep draw sel st) ≤ countEvents total st ∧
    (∀ s1, selectStep draw sel st = some s1 → s1 ⊆ Finset.range total) := by
  unfold selectStep
  cases hd : draw sel with
  | none => exact ⟨le_refl _, hst⟩
  | some nl =>
    cases st with
    | none =>
      refine ⟨?_, ?_⟩
      · have h1 : nl.card ≤ (Finset.range total).card :=
          Finset.card_le_card (hdraw sel nl hd)
        simpa [countEvents, Finset.card_range] using h1
      · intro s1 h1
        have h2 : nl = s1 := by injection h1
        exact h2 ▸ hdraw sel nl hd
    | some old =>
      refine ⟨?_, ?_⟩
      · have h1 : (nl ∩ old).card ≤ old.card :=
          Finset.card_le_card Finset.inter_subset_right
        simpa [countEvents] using h1
      · intro s1 h1
        have h2 : nl ∩ old = s1 := by injection h1
        intro x hx
        rw [← h2] at hx
        exact hst old rfl (Finset.mem_inter.mp hx).2

/-- Folding `select` over a sequence of expressions never increases `count()`. -/
theorem select_fold_count_le (total : ℕ) (draw : String → Option (Finset ℕ))
    (hdraw : ∀ s nl, draw s = some nl → nl ⊆ Finset.range total) :
    ∀ (sels : List String) (st : Option (Finset ℕ)),
      (∀ s0, st = some s0 → s0 ⊆ Finset.range total) →
      countEvents total (sels.foldl (fun acc s => selectStep draw s acc) st) ≤
        countEvents total st := by
  intro sels
  induction sels with
  | nil => intro st _; simp
  | cons s rest ih =>
    intro st hst
    simp only [List.foldl_cons]
    have hstep := selectStep_count_invariant total draw s st hdraw hst
    exact le_trans (ih (selectStep draw s st) hstep.2) hstep.1

/-- Claim C3: a successful `select` call on a handle with a stored eventlist
replaces it with the intersection of the newly computed index set and the
previous eventlist (never a union), and over any sequence of `select` calls
whose computed index sets lie within the entry range, `count()` is
non-increasing. -/
theorem select_monotone_narrowing :
    (∀ (draw : String → Option (Finset ℕ)) (sel : String) (nl old : Finset ℕ),
      draw sel = some nl → selectStep draw sel (some old) = some (nl ∩ old)) ∧
    (∀ (total : ℕ) (draw : String → Option (Finset ℕ)) (sels : List String)
      (st : Option (Finset ℕ)),
      (∀ s nl, draw s = some nl → nl ⊆ Finset.range total) →
      (∀ s0, st = some s0 → s0 ⊆ Finset.range total) →
      countEvents total (sels.foldl (fun acc s => selectStep draw s acc) st) ≤
        countEvents total st) := by
  constructor
  · intro draw sel nl old h
    simp [selectStep, h]
  · intro total draw sels st hdraw hst
    exact select_fold_count_le total draw hdraw sels st hst

/-- Witness for claim C3 at a concrete source: two selections narrowing a
two-entry source. -/
theorem select_monotone_narrowing_witness :
    ((fun s : String => if s = "a" then some ({0} : Finset ℕ) else some {0, 1}) "a" =
      some ({0} : Finset ℕ)) ∧
    selectStep (fun s : String => if s = "a" then some ({0} : Finset ℕ) else some {0, 1})
      "a" (some {0, 1}) = some (({0} : Finset ℕ) ∩ {0, 1}) ∧
    countEvents 2
      (["a", "b"].foldl
        (fun acc s =>
          selectStep (fun s : String => if s = "a" then some ({0} : Finset ℕ) else some {0, 1})
            s acc)
        none) ≤ countEvents 2 none := by
  refine ⟨rfl, ?_, ?_⟩
  · exact select_monotone_narrowing.1 _ "a" {0} {0, 1} rfl
  · refine select_monotone_narrowing.2 2 _ ["a", "b"] none ?_ ?_
    · intro s nl h
      by_cases hs : s = "a" <;> simp [hs] at h <;> rw [← h] <;> intro x hx <;>
        simp at hx <;> simp [Finset.mem_range] <;> omega
    · intro s0 h; cases h

/-- Claim C4 counterexample: on a malformed expression neither variant fails
with `SelectionError`. For `Ntuple.select` the draw yields a null eventlist
and the call returns normally (no raise exists on any path of core/ntuple.py
lines 152-166); for `Events.select` the call fails, but with the `TypeError`
of the `d.GetName(name)` slip at core/events.py line 85, not with
`SelectionError`. The stored eventlist is unchanged in both. -/
theorem select_malformed_no_error_cex :
    ntupleSelect (fun _ => none) "((" (some ({1, 2} : Finset ℕ)) =
      Except.ok (some ({1, 2} : Finset ℕ)) ∧
    eventsSelect (fun _ => none) "((" (some ({1, 2} : Finset ℕ)) =
      (Except.error (PyError.typeError "GetName() takes no arguments (1 given)"),
        some ({1, 2} : Finset ℕ)) :=
  ⟨rfl, rfl⟩

/-- Claim C4 (amended): on a malformed expression no `SelectionError` is
raised — no such class exists — and the stored eventlist is left exactly as it
was before the call, but the two variants part ways on how the call ends:
`Ntuple.select` computes a null eventlist and returns normally, while
`Events.select` raises `TypeError` on every call, malformed or not, because
`_create_eventlist` passes an argument to `TDirectory.GetName`, failing before
any state mutation. -/
theorem select_malformed_noop :
    (∀ (draw : String → Option (Finset ℕ)) (sel : String) (st : Option (Finset ℕ)),
      draw sel = none → ntupleSelect draw sel st = Except.ok st) ∧
    (∀ (draw : String → Option (Finset ℕ)) (sel : String) (st : Option (Finset ℕ)),
      eventsSelect draw sel st =
        (Except.error (PyError.typeError "GetName() takes no arguments (1 given)"), st)) := by
  constructor
  · intro draw sel st h
    simp [ntupleSelect, selectStep, h]
  · intro draw sel st
    rfl

/-- Witness for the amended claim C4 at a concrete malformed expression, on
both variants. -/
theorem select_malformed_noop_witness :
    ((fun _ : String => (none : Option (Finset ℕ))) "((" = none) ∧
    ntupleSelect (fun _ : String => (none : Option (Finset ℕ))) "(("
      (some ({1} : Finset ℕ)) = Except.ok (some ({1} : Finset ℕ)) ∧
    eventsSelect (fun _ : String => (none : Option (Finset ℕ))) "(("
      (some ({1} : Finset ℕ)) =
      (Except.error (PyError.typeError "GetName() takes no arguments (1 given)"),
        some ({1} : Finset ℕ)) :=
  ⟨rfl, select_malformed_noop.1 _ "((" _ rfl, select_malformed_noop.2 _ "((" _⟩

/-- The composed form of two selections is never the empty string. -/
theorem paren_form_ne_empty (a b : String) :
    "(" ++ a ++ ")&&(" ++ b ++ ")" ≠ "" := by
  intro h
  have hl : ("(" ++ a ++ ")&&(" ++ b ++ ")").length = ("" : String).length := by rw [h]
  simp only [String.length_append] at hl
  have h1 : ("(" : String).length = 1 := rfl
  have h2 : (")&&(" : String).length = 4 := rfl
  have h3 : (")" : String).length = 1 := rfl
  have h0 : ("" : String).length = 0 := rfl
  omega

/-- Claim C5 counterexample: composing a non-empty selection with the empty
string does not return the original selection — the code glues the empty
string in as an empty conjunct. -/
theorem compose_right_identity_cex :
    composeSelection "x" "" = "(x)&&()" ∧ composeSelection "x" "" ≠ "x" := by
  constructor
  · rfl
  · decide

/-- Claim C5 (amended): composition returns `b` when `a` is empty, and glues
non-empty `a` with any `b` as `(a)&&(b)` — so the left identity holds for all
operands, the right identity fails for non-empty `a`, and under any boolean
evaluation that reads the glued form as conjunction, composition of non-empty
operands is associative. -/
theorem compose_amended :
    (∀ b, composeSelection "" b = b) ∧
    (∀ a b, a ≠ "" → composeSelection a b = "(" ++ a ++ ")&&(" ++ b ++ ")") ∧
    (∀ evalB : String → Bool,
      (∀ x y, evalB ("(" ++ x ++ ")&&(" ++ y ++ ")") = (evalB x && evalB y)) →
      ∀ a b c, a ≠ "" → b ≠ "" →
        evalB (composeSelection a (composeSelection b c)) =
          evalB (composeSelection (composeSelection a b) c)) := by
  refine ⟨?_, ?_, ?_⟩
  · intro b; simp [composeSelection]
  · intro a b ha; simp [composeSelection, ha]
  · intro evalB hhom a b c ha hb
    have hab : composeSelection a b = "(" ++ a ++ ")&&(" ++ b ++ ")" := by
      simp [composeSelection, ha]
    have hbc : composeSelection b c = "(" ++ b ++ ")&&(" ++ c ++ ")" := by
      simp [composeSelection, hb]
    have habne : composeSelection a b ≠ "" := by
      rw [hab]; exact paren_form_ne_empty a b
    calc evalB (composeSelection a (composeSelection b c))
        = evalB ("(" ++ a ++ ")&&(" ++ composeSelection b c ++ ")") := by
          simp [composeSelection, ha]
      _ = (evalB a && evalB (composeSelection b c)) := hhom _ _
      _ = (evalB a && (evalB b && evalB c)) := by rw [hbc, hhom]
      _ = ((evalB a && evalB b) && evalB c) := by rw [Bool.and_assoc]
      _ = (evalB (composeSelection a b) && evalB c) := by rw [hab, hhom]
      _ = evalB ("(" ++ composeSelection a b ++ ")&&(" ++ c ++ ")") := (hhom _ _).symm
      _ = evalB (composeSelection (composeSelection a b) c) := by
          have hgen : ∀ x : String, x ≠ "" →
              composeSelection x c = "(" ++ x ++ ")&&(" ++ c ++ ")" := by
            intro x hx; simp [composeSelection, hx]
          rw [hgen (composeSelection a b) habne]

/-- Witness for the amended claim C5 at concrete operands, with the constant
boolean evaluation as a concrete conjunction-respecting evaluation. -/
theorem compose_amended_witness :
    composeSelection "" "y" = "y" ∧
    composeSelection "x" "y" = "(" ++ "x" ++ ")&&(" ++ "y" ++ ")" ∧
    (fun _ : String => true) (composeSelection "x" (composeSelection "y" "z")) =
      (fun _ : String => true) (composeSelection (composeSelection "x" "y") "z") :=
  ⟨compose_amended.1 "y",
   compose_amended.2.1 "x" "y" (by decide),
   compose_amended.2.2 (fun _ => true) (fun x y => by simp) "x" "y" "z"
     (by decide) (by decide)⟩

/-- Claim C6: evaluating `Process.__init__` on concrete datasets. Line 24 of
core/collections.py iterates the generator expression over the unbound name
`dataset`, so construction raises `NameError` for duplicate-named and
distinct-named datasets alike, before the duplicate check can raise
`DuplicateDatasetError`; the iteration order of `Process.__iter__` itself, run
on two members of two chunks each, is the claimed one. -/
theorem process_construction_name_error :
    processInit [⟨"/a/b/c", ""⟩, ⟨"/a/b/c", ""⟩] = Except.error (PyError.nameError "dataset") ∧
    processInit [⟨"/a/b/c", ""⟩, ⟨"/d/e/f", ""⟩] = Except.error (PyError.nameError "dataset") ∧
    processIter [["A1", "A2"], ["B1", "B2"]] = ["A1", "A2", "B1", "B2"] :=
  ⟨rfl, rfl, rfl⟩

/-- Claim C7: evaluating the scoped lifecycles. The with-statement protocol
calls `__exit__` with three arguments; `Events.__exit__` is declared with none
besides `self` (core/events.py line 61), so scope exit raises `TypeError` and
the state — histogram attributes, eventlist, chained files — survives
unreleased even on the normal path. `Ntuple.__exit__` (core/ntuple.py lines
45-51) has the correct arity and releases everything even when the body
raises. -/
theorem scoped_release_exit_behaviour :
    withEvents ⟨false, none, ["CountWeighted"], some {1, 2}, ["a.root"]⟩
      (fun s => (s, (0 : ℕ))) =
      (Except.error (PyError.typeError "__exit__() takes exactly 1 argument (4 given)"),
        ⟨false, none, ["CountWeighted"], some {1, 2}, ["a.root"]⟩) ∧
    withNtuple ⟨["CountWeighted"], some {1, 2}, ["a.root"]⟩
      (fun s => (s, (Except.error "OpenError" : Except String ℕ))) =
      (Except.error "OpenError", ⟨[], none, []⟩) :=
  ⟨rfl, rfl⟩

/-- Claim C8 counterexample: with a command runner that fails every copy, the
`multixrdcp` of core/utils.py returns success even though the single copy it
ran failed — the staging component there silently swallows the failure. -/
theorem staging_swallow_cex :
    multixrdcpUtils (fun _ => 1) ["root://h//f1"] "/tmp/stage" false = Except.ok () ∧
    xrdcp (fun _ => 1) "root://h//f1" "/tmp/stage" false =
      Except.error (XRDCopyError.mk "root://h//f1") :=
  ⟨rfl, rfl⟩

/-- Claim C8 (amended): each copy whose command exits non-zero fails with
`XRDCopyError`, and the `multixrdcp` of core/xrdcp.py — which runs every
submitted job and collects every result in completion order — succeeds exactly
when every copy's command exits zero, reporting the first failure otherwise;
the core/utils.py variant is excluded, as it never collects results. -/
theorem staging_first_failure_amended (run : List String → Int) (order : List ℕ)
    (srcs : List String) (dst : String) (force : Bool) (src : String)
    (hfail : run (xrdcpCommand src dst force) ≠ 0)
    (hperm : order.Perm (List.range srcs.length)) :
    xrdcp run src dst force = Except.error (XRDCopyError.mk src) ∧
    (multixrdcp run order srcs dst force = Except.ok () ↔
      ∀ s ∈ srcs, run (xrdcpCommand s dst force) = 0) := by
  constructor
  · simp [xrdcp, hfail]
  · have hjob : ∀ (i : ℕ) (hi : i < srcs.length),
        (jobResults run srcs dst force).getD i (Except.ok ()) =
          xrdcp run srcs[i] dst force := by
      intro i hi
      unfold jobResults
      rw [List.getD_eq_getElem?_getD, List.getElem?_map, List.getElem?_eq_getElem hi]
      rfl
    have hnone : (firstFailure (jobResults run srcs dst force) order = none) ↔
        ∀ s ∈ srcs, run (xrdcpCommand s dst force) = 0 := by
      unfold firstFailure
      rw [List.findSome?_eq_none_iff]
      constructor
      · intro hall s hs
        obtain ⟨i, hi, hget⟩ := List.mem_iff_getElem.mp hs
        have hio : i ∈ order := hperm.mem_iff.mpr (List.mem_range.mpr hi)
        have hres := hall i hio
        rw [hjob i hi, hget] at hres
        by_cases h0 : run (xrdcpCommand s dst force) = 0
        · exact h0
        · simp [xrdcp, h0] at hres
      · intro hall i hi
        have hilt : i < srcs.length := List.mem_range.mp (hperm.mem_iff.mp hi)
        rw [hjob i hilt]
        have h0 := hall srcs[i] (List.mem_iff_getElem.mpr ⟨i, hilt, rfl⟩)
        simp [xrdcp, h0]
    have hmx : (multixrdcp run order srcs dst force = Except.ok ()) ↔
        firstFailure (jobResults run srcs dst force) order = none := by
      unfold multixrdcp
      cases hff : firstFailure (jobResults run srcs dst force) order <;> simp
    rw [hmx, hnone]

/-- Witness for the amended claim C8: one failing copy, the identity
completion order. -/
theorem staging_first_failure_amended_witness :
    ((fun _ : List String => (1 : Int)) (xrdcpCommand "root://h//f1" "/tmp/stage" false) ≠ 0) ∧
    ([0] : List ℕ).Perm (List.range (["root://h//f1"] : List String).length) ∧
    (xrdcp (fun _ => 1) "root://h//f1" "/tmp/stage" false =
        Except.error (XRDCopyError.mk "root://h//f1") ∧
      (multixrdcp (fun _ => 1) [0] ["root://h//f1"] "/tmp/stage" false = Except.ok () ↔
        ∀ s ∈ (["root://h//f1"] : List String),
          (fun _ : List String => (1 : Int)) (xrdcpCommand s "/tmp/stage" false) = 0)) := by
  refine ⟨by decide, by decide, ?_⟩
  exact staging_first_failure_amended (fun _ => 1) [0] ["root://h//f1"] "/tmp/stage" false
    "root://h//f1" (by decide) (by decide)

/-- Claim C9: evaluating `Process.select` on a store holding one dataset named
DY with selection a. The deep copies are allocated and their selections are
extended conjunctively, the original cell is left unchanged in the store, but
the final `Process(*datasets)` call raises `NameError` inside the constructor
(core/collections.py line 24), so no new group is returned. -/
theorem process_select_name_error :
    processSelect [⟨"DY", "a"⟩] [0] "b" =
      ([⟨"DY", "a"⟩, ⟨"DY", "(a)&&(b)"⟩], Except.error (PyError.nameError "dataset")) ∧
    (processSelect [⟨"DY", "a"⟩] [0] "b").1.take 1 = [⟨"DY", "a"⟩] :=
  ⟨rfl, rfl⟩

/-- Claim C10: when the `files` attribute is overridden, iterating the dataset
yields each element of that list verbatim and in order, with no chunking, no
validity filtering, no url construction and no `Events` handle — the
`chunk_size`, `valid` and `redirector` parameters do not appear in the result,
whatever records the catalog would have supplied. -/
theorem files_override_iteration (fs : List String) (selection : String)
    (chunk_size : ℚ) (redirector : Option String) (valid : Bool)
    (records : List FileRecord) :
    datasetIter ⟨some fs, selection, chunk_size, redirector, valid⟩ records =
      Except.ok (fs.map YieldItem.file) := rfl

end Vhbbtools
